import Mathlib

/-!
Shallow embedding of the streaming tool-call orchestration core of the
TradeBot repository (`src/services/gemini.ts`), together with the service
construction (`GeminiService.constructor`, `initializeChat`) and the mock
chart generator (`generateMockChartData`).

External JavaScript builtins are modelled explicitly:
* `Math.random()` — a stream `rand : ℕ → ℚ` of successive outputs,
  threaded through the computation by an index `k` that counts how many
  random numbers have been consumed so far;
* `Date` formatting (`toLocaleTimeString` / `toLocaleDateString` of `now`
  minus an offset) — an opaque labelling function
  `dateLabel : String → ℕ → String` taking the period and the loop
  offset `i`;
* floating-point numbers — exact rationals `ℚ`; `toFixed(2)` followed by
  `parseFloat` is modelled as rounding to two decimals (`round2`), and
  rendering a number into a template string as `Rat`'s `toString`;
* the model boundary (`chatSession.sendMessageStream`) — the initial
  stream is an input `List Fragment`, and the stream obtained by
  submitting a batch of tool responses is given by an environment
  function `resume : ℕ → List FunctionResponse → List Fragment`
  (indexed by how many submissions have happened in this turn).

The incremental sink callbacks (`onChunk`, `onChart`) and the messages
submitted back to the model are recorded as an ordered event trace so
that ordering properties can be stated and proved.
-/

/-- JavaScript `v || d` for a `string | undefined` value `v`: `undefined`
and the empty string are falsy and give the default `d`. Used for
`process.env.API_KEY || ''`, `args.symbol || 'UNKNOWN'` and
`args.period || '1M'`. -/
def jsOr (v : Option String) (d : String) : String :=
  match v with
  | none => d
  | some s => if s = "" then d else s

/-- `parseFloat(x.toFixed(2))`: rounding to two decimals, modelled as
round-half-up on exact rationals. -/
def round2 (q : ℚ) : ℚ :=
  ((Rat.floor (q * 100 + 1 / 2) : ℤ) : ℚ) / 100

/-- Rendering a JS number into a template string, modelled as `Rat`'s
`toString` on the exact rational. -/
def numToString (q : ℚ) : String :=
  toString q

/-- `(x).toFixed(2)` as a string, modelled as `round2` then rendering. -/
def toFixed2 (q : ℚ) : String :=
  numToString (round2 q)

/-- Concatenation of a list of strings, in order. -/
def concatAll : List String → String
  | [] => ""
  | s :: rest => s ++ concatAll rest

/-- JS `String.prototype.toUpperCase()`, modelled as character-wise
upper-casing. -/
def toUpperStr (s : String) : String :=
  String.mk (s.data.map Char.toUpper)

/-- One entry of `StockChartData.data` (`ChartDataPoint` in
`src/types`): `{date: string, price: number, volume: number}`. -/
structure ChartDataPoint where
  date : String
  price : ℚ
  volume : ℤ
deriving DecidableEq

/-- `StockChartData` from `src/types`: the ChartSeries payload.
`trend` is one of the string literals "up", "down", "neutral". -/
structure StockChartData where
  symbol : String
  data : List ChartDataPoint
  period : String
  trend : String
deriving DecidableEq

/-- The default used to read `data[0]` / `data[data.length-1]`; the
generated list is never empty so the default is never observed. -/
def defaultPoint : ChartDataPoint :=
  { date := "", price := 0, volume := 0 }

/-- The `points` variable of `generateMockChartData`: starts at 30, then
the sequential `if` statements on the (pairwise distinct) period strings
reassign it. -/
def pointsFor (period : String) : ℕ :=
  if period = "1D" then 24
  else if period = "1W" then 7
  else if period = "1M" then 30
  else if period = "1Y" then 12
  else 30

/-- The `for (let i = points; i >= 0; i--)` loop of
`generateMockChartData`. The first argument is the number of remaining
iterations (`points + 1` initially), so the current `i` is `n` when the
remaining count is `n + 1`. Each iteration consumes two random numbers
(the price change, then the volume), updates `currentPrice` before
pushing, and stores the rounded updated price. -/
def chartLoop (rand : ℕ → ℚ) (dateLabel : String → ℕ → String)
    (period : String) : ℕ → ℕ → ℚ → List ChartDataPoint
  | 0, _, _ => []
  | n + 1, k, price =>
    let change := price * (rand k - 1 / 2) * (2 / 100)
    let price2 := price + change
    let pt : ChartDataPoint :=
      { date := dateLabel period n
        price := round2 price2
        volume := Rat.floor (rand (k + 1) * 10000) + 1000 }
    pt :: chartLoop rand dateLabel period n (k + 2) price2

/-- `generateMockChartData(symbol, period)` from
`src/services/gemini.ts` (lines 13–52). `k` is the index into the
`Math.random()` stream at entry; the start price consumes one random
number, then the loop runs `points + 1` times. -/
def generateMockChartData (rand : ℕ → ℚ) (dateLabel : String → ℕ → String)
    (k : ℕ) (symbol period : String) : StockChartData :=
  let points := pointsFor period
  let startPrice := rand k * 100 + 50
  let data := chartLoop rand dateLabel period (points + 1) (k + 1) startPrice
  let start := (data.headD defaultPoint).price
  let endP := (data.getLastD defaultPoint).price
  { symbol := toUpperStr symbol
    data := data
    period := period
    trend := if endP > start then "up" else if endP < start then "down" else "neutral" }

/-- How many `Math.random()` outputs one call of `generateMockChartData`
consumes: one for the start price and two per loop iteration. -/
def chartRandCount (period : String) : ℕ :=
  1 + 2 * (pointsFor period + 1)

/-- A collected citation `{title, uri}` (`GroundingSource` in
`src/types`). -/
structure GroundingSource where
  title : String
  uri : String
deriving DecidableEq

/-- One raw grounding chunk as seen by the loop over
`chunk.candidates?.[0]?.groundingMetadata?.groundingChunks`: the
optional `c.web?.title` and `c.web?.uri` fields. -/
structure RawGrounding where
  title : Option String
  uri : Option String
deriving DecidableEq

/-- One entry of `chunk.functionCalls`: the correlation `id`, the tool
`name`, and the `args` object of which the code reads only
`args.symbol` and `args.period` (each a `string | undefined`). -/
structure FunctionCall where
  id : String
  name : String
  argSymbol : Option String
  argPeriod : Option String
deriving DecidableEq

/-- One entry pushed onto `functionResponses`: `{id, name,
response: {result}}`. -/
structure FunctionResponse where
  id : String
  name : String
  result : String
deriving DecidableEq

/-- One streamed chunk (`StreamFragment`): the optional `chunk.text`,
the optional grounding-chunk list, and the (possibly absent, here
possibly empty) `chunk.functionCalls`. -/
structure Fragment where
  text : Option String
  grounding : Option (List RawGrounding)
  functionCalls : List FunctionCall
deriving DecidableEq

/-- Observable events of one turn, in order: an `onChunk(text)`
callback, an `onChart(chart)` callback, or a submission of a full tool
response batch back to the model via `sendMessageStream`. The final
`TurnResult` is produced after the last event of the trace. -/
inductive Event where
  | chunk (text : String)
  | chart (c : StockChartData)
  | submit (batch : List FunctionResponse)
deriving DecidableEq

/-- The value returned by `sendMessage`:
`{text: fullTextResponse, sources}`. -/
structure TurnResult where
  text : String
  sources : List GroundingSource
deriving DecidableEq

/-- Mutable turn state threaded through the fragment loop:
`fullTextResponse`, `sources`, the `Math.random()` stream index `k`,
and the count `n` of tool-response submissions so far. -/
structure TurnState where
  fullText : String
  sources : List GroundingSource
  k : ℕ
  n : ℕ
deriving DecidableEq

/-- The external world of one `sendMessage` turn: the `Math.random()`
stream, the date labeller, and the model boundary — `resume n batch` is
the fragment sequence the model streams back after the `n`-th
submission of tool responses in this turn. -/
structure ModelEnv where
  rand : ℕ → ℚ
  dateLabel : String → ℕ → String
  resume : ℕ → List FunctionResponse → List Fragment

/-- Output of executing one tool call (or a batch): the sink events it
emitted, the function responses it pushed, and the updated random
index. -/
structure ExecOut where
  events : List Event
  responses : List FunctionResponse
  k : ℕ
deriving DecidableEq

/-- The two tool names the dispatch in `sendMessage` recognises. -/
def isKnownTool (c : FunctionCall) : Bool :=
  c.name == "getStockChart" || c.name == "getStockPrice"

/-- The body of `for (const call of functionCalls)` in
`GeminiService.sendMessage` (lines 170–197): compute
`symbol = args.symbol || 'UNKNOWN'`, then dispatch on `call.name`.
`getStockChart` generates the chart, invokes `onChart`, and pushes a
summary naming the latest price; `getStockPrice` pushes a mock price
message; any other name falls through both branches and pushes
nothing. -/
def execCall (env : ModelEnv) (k : ℕ) (call : FunctionCall) : ExecOut :=
  let symbol := jsOr call.argSymbol "UNKNOWN"
  if call.name = "getStockChart" then
    let period := jsOr call.argPeriod "1M"
    let chartData := generateMockChartData env.rand env.dateLabel k symbol period
    let lastPrice := (chartData.data.getLastD defaultPoint).price
    { events := [Event.chart chartData]
      responses := [{ id := call.id, name := call.name
                      result := "Chart generated for " ++ symbol ++ ". Current price is "
                        ++ numToString lastPrice ++ "." }]
      k := k + chartRandCount period }
  else if call.name = "getStockPrice" then
    let price := toFixed2 (env.rand k * 1000 + 10)
    { events := []
      responses := [{ id := call.id, name := call.name
                      result := "The current price of " ++ symbol ++ " is $" ++ price ++ "." }]
      k := k + 1 }
  else
    { events := [], responses := [], k := k }

/-- The whole `for (const call of functionCalls)` loop: calls executed
in order, events and responses collected in order. -/
def execBatch (env : ModelEnv) : ℕ → List FunctionCall → ExecOut
  | k, [] => { events := [], responses := [], k := k }
  | k, c :: cs =>
    let o1 := execCall env k c
    let o2 := execBatch env o1.k cs
    { events := o1.events ++ o2.events
      responses := o1.responses ++ o2.responses
      k := o2.k }

/-- `if (text) { fullTextResponse += text; onChunk(text); }` — the empty
string is falsy, so it is neither appended nor delivered. -/
def appendText (acc : String) (t : Option String) : String × List Event :=
  match t with
  | none => (acc, [])
  | some s => if s = "" then (acc, []) else (acc ++ s, [Event.chunk s])

/-- The `for await (const toolChunk of toolStream)` loop: the resumed
stream is consumed for text only — grounding and function calls of its
fragments are never read. -/
def consumeToolStream (acc : String) : List Fragment → String × List Event
  | [] => (acc, [])
  | f :: fs =>
    let step := appendText acc f.text
    let rest := consumeToolStream step.1 fs
    (rest.1, step.2 ++ rest.2)

/-- The grounding handler: for each raw chunk, push `{title, uri}` when
`c.web?.uri && c.web?.title` is truthy (both present and non-empty). -/
def groundingOf (frag : Fragment) : List GroundingSource :=
  match frag.grounding with
  | none => []
  | some l =>
    l.filterMap fun c =>
      match c.uri, c.title with
      | some u, some t => if u = "" ∨ t = "" then none else some { title := t, uri := u }
      | _, _ => none

/-- Processing of one fragment of the outer stream (the body of
`for await (const chunk of streamResult)`, lines 147–218): text, then
grounding, then — when `functionCalls` is non-empty — the tool batch;
when the batch produced at least one response, the full response list is
submitted as one message and the resumed stream is consumed for text. -/
def processFragment (env : ModelEnv) (st : TurnState) (frag : Fragment) :
    TurnState × List Event :=
  let step := appendText st.fullText frag.text
  let sources1 := st.sources ++ groundingOf frag
  if frag.functionCalls.isEmpty then
    ({ fullText := step.1, sources := sources1, k := st.k, n := st.n }, step.2)
  else
    let out := execBatch env st.k frag.functionCalls
    if out.responses.isEmpty then
      ({ fullText := step.1, sources := sources1, k := out.k, n := st.n },
        step.2 ++ out.events)
    else
      let tool := consumeToolStream step.1 (env.resume st.n out.responses)
      ({ fullText := tool.1, sources := sources1, k := out.k, n := st.n + 1 },
        step.2 ++ out.events ++ [Event.submit out.responses] ++ tool.2)

/-- The outer fragment loop over the initial stream. -/
def processStream (env : ModelEnv) : TurnState → List Fragment → TurnState × List Event
  | st, [] => (st, [])
  | st, f :: fs =>
    let step := processFragment env st f
    let rest := processStream env step.1 fs
    (rest.1, step.2 ++ rest.2)

/-- `GeminiService.sendMessage` (lines 132–226), starting from the
initial stream the model returned for the user message: the final
`TurnResult {text, sources}` together with the full event trace of the
turn. -/
def sendMessage (env : ModelEnv) (stream : List Fragment) :
    TurnResult × List Event :=
  let run := processStream env { fullText := "", sources := [], k := 0, n := 0 } stream
  ({ text := run.1.fullText, sources := run.1.sources }, run.2)

/-- The texts of the `onChunk` events of a trace, in order. -/
def chunkTexts (tr : List Event) : List String :=
  tr.filterMap fun e =>
    match e with
    | Event.chunk s => some s
    | _ => none

/-- The batches submitted back to the model, in order. -/
def submitsOf (tr : List Event) : List (List FunctionResponse) :=
  tr.filterMap fun e =>
    match e with
    | Event.submit b => some b
    | _ => none

/-- Is this event an `onChart` callback? -/
def isChartEv (e : Event) : Bool :=
  match e with
  | Event.chart _ => true
  | _ => false

/-- Is this event an `onChunk` callback? -/
def isChunkEv (e : Event) : Bool :=
  match e with
  | Event.chunk _ => true
  | _ => false

/-- Is this event a submission of tool responses to the model? -/
def isSubmitEv (e : Event) : Bool :=
  match e with
  | Event.submit _ => true
  | _ => false

/-- The non-`onChunk` events of a trace (chart callbacks and
submissions), in order. -/
def nonChunk (tr : List Event) : List Event :=
  tr.filter fun e => !isChunkEv e

/-- The chat session object created by `this.ai.chats.create` in
`initializeChat`: the model name and the declared function tools. The
prose fields (system instruction, tool descriptions, parameter schemas)
are inert configuration data not observed by any computation and are
elided. -/
structure ChatSession where
  modelName : String
  declaredTools : List String
deriving DecidableEq

/-- The fields of a `GeminiService` instance relevant to construction
and session initialization. -/
structure GeminiServiceState where
  apiKey : String
  chatSession : Option ChatSession
deriving DecidableEq

/-- `GeminiService`'s constructor (lines 98–107), as a function of the
environment's optional `API_KEY`: when the key is falsy (absent or
empty) it logs an error to the console — and nothing more; the field is
set to `apiKey || ''` and construction proceeds. The second component
is the list of console-error messages emitted. -/
def mkGeminiService (envApiKey : Option String) : GeminiServiceState × List String :=
  let logs :=
    if envApiKey = none ∨ envApiKey = some "" then
      ["API_KEY is missing from environment variables"]
    else []
  ({ apiKey := jsOr envApiKey "", chatSession := none }, logs)

/-- `GeminiService.initializeChat` (lines 109–130): unconditionally
creates a chat session configured with the model name and the two
declared tools. -/
def initializeChat (s : GeminiServiceState) : GeminiServiceState :=
  { s with
    chatSession := some
      { modelName := "gemini-2.5-flash"
        declaredTools := ["getStockChart", "getStockPrice"] } }

/-! Concrete inputs used by witnesses and counterexamples. -/

/-- A concrete `Math.random()` stream: every output is `0`. -/
def cRand : ℕ → ℚ := fun _ => 0

/-- A concrete date labeller. -/
def cDateLabel : String → ℕ → String := fun _ _ => "d"

/-- A concrete environment whose resumed streams are empty. -/
def cEnv0 : ModelEnv :=
  { rand := cRand, dateLabel := cDateLabel, resume := fun _ _ => [] }

/-- A tool invocation request whose name matches no registered tool. -/
def cUnknownCall : FunctionCall :=
  { id := "call-7", name := "webSearch", argSymbol := some "AAPL", argPeriod := none }

/-- A fragment carrying text and a single unknown-tool request. -/
def cUnknownFrag : Fragment :=
  { text := some "Looking that up.", grounding := none, functionCalls := [cUnknownCall] }

/-- A fresh turn state. -/
def cState0 : TurnState :=
  { fullText := "", sources := [], k := 0, n := 0 }

/-- A `getStockPrice` request. -/
def cPriceCall : FunctionCall :=
  { id := "p1", name := "getStockPrice", argSymbol := some "AAPL", argPeriod := none }

/-- A fragment whose only content is the `getStockPrice` request. -/
def cPriceFrag : Fragment :=
  { text := none, grounding := none, functionCalls := [cPriceCall] }

/-- A `getStockChart` request. -/
def cChartCall : FunctionCall :=
  { id := "c1", name := "getStockChart", argSymbol := some "ETH", argPeriod := some "1W" }

/-- A resumed-stream fragment that contains a further `getStockChart`
request (what the model might send after seeing tool results). -/
def cResumeFrag : Fragment :=
  { text := some "done", grounding := none, functionCalls := [cChartCall] }

/-- An environment whose every resumed stream is `[cResumeFrag]`: the
model answers each tool-result submission with a further tool
request. -/
def cEnvResume : ModelEnv :=
  { rand := cRand, dateLabel := cDateLabel, resume := fun _ _ => [cResumeFrag] }

/-- A fragment carrying text and a `getStockChart` request. -/
def cChartFrag : Fragment :=
  { text := some "Here is the chart. ", grounding := none, functionCalls := [cChartCall] }

/-- An environment whose resumed streams carry closing text. -/
def cEnvText : ModelEnv :=
  { rand := cRand, dateLabel := cDateLabel
    resume := fun _ _ => [{ text := some "All done.", grounding := none, functionCalls := [] }] }

/-- A `getStockChart` request with the symbol present but the period
argument missing. -/
def cChartNoPeriod : FunctionCall :=
  { id := "c2", name := "getStockChart", argSymbol := some "AAPL", argPeriod := none }

/-- A `getStockChart` request with the symbol argument missing but the
period present. -/
def cChartNoSymbol : FunctionCall :=
  { id := "c3", name := "getStockChart", argSymbol := none, argPeriod := some "1D" }

/-- A `getStockPrice` request with the symbol argument missing. -/
def cPriceNoSymbol : FunctionCall :=
  { id := "p2", name := "getStockPrice", argSymbol := none, argPeriod := none }

/-! Helper lemmas. -/

/-- The generation loop produces exactly as many points as its remaining
iteration count. -/
theorem chartLoop_length (rand : ℕ → ℚ) (dl : String → ℕ → String) (period : String) :
    ∀ (n k : ℕ) (p : ℚ), (chartLoop rand dl period n k p).length = n
  | 0, _, _ => rfl
  | n + 1, k, p => by
    simp [chartLoop, chartLoop_length rand dl period n]

/-- The generated series always has `pointsFor period + 1` points. -/
theorem generateMockChartData_data_length (rand : ℕ → ℚ) (dl : String → ℕ → String)
    (k : ℕ) (symbol period : String) :
    (generateMockChartData rand dl k symbol period).data.length = pointsFor period + 1 := by
  simp [generateMockChartData, chartLoop_length]

/-- The `period` field of the generated series is the input string. -/
theorem generateMockChartData_period (rand : ℕ → ℚ) (dl : String → ℕ → String)
    (k : ℕ) (symbol period : String) :
    (generateMockChartData rand dl k symbol period).period = period := by
  simp [generateMockChartData]

/-- The trend conditional compared against each of its three possible
values. -/
theorem trend_iff (s e : ℚ) :
    ((if e > s then "up" else if e < s then "down" else "neutral") = "up" ↔ e > s)
    ∧ ((if e > s then "up" else if e < s then "down" else "neutral") = "down" ↔ e < s)
    ∧ ((if e > s then "up" else if e < s then "down" else "neutral") = "neutral" ↔ e = s) := by
  rcases lt_trichotomy e s with h | h | h
  · rw [if_neg (lt_asymm h), if_pos h]
    exact ⟨iff_of_false (by decide) (lt_asymm h), iff_of_true rfl h,
      iff_of_false (by decide) (ne_of_lt h)⟩
  · rw [if_neg (by rw [h]; exact lt_irrefl s), if_neg (by rw [h]; exact lt_irrefl s)]
    exact ⟨iff_of_false (by decide) (by rw [h]; exact lt_irrefl s),
      iff_of_false (by decide) (by rw [h]; exact lt_irrefl s), iff_of_true rfl h⟩
  · rw [if_pos h]
    exact ⟨iff_of_true rfl h, iff_of_false (by decide) (lt_asymm h),
      iff_of_false (by decide) (ne_of_gt h)⟩

/-- Concatenation distributes over list append. -/
theorem concatAll_append (a b : List String) :
    concatAll (a ++ b) = concatAll a ++ concatAll b := by
  induction a with
  | nil => simp [concatAll, String.empty_append]
  | cons s rest ih => simp [concatAll, ih, String.append_assoc]

/-- `chunkTexts` distributes over list append. -/
theorem chunkTexts_append (a b : List Event) :
    chunkTexts (a ++ b) = chunkTexts a ++ chunkTexts b := by
  simp [chunkTexts, List.filterMap_append]

/-- The text-handling step appends to the accumulator exactly what it
delivers via `onChunk`. -/
theorem appendText_fst (acc : String) (t : Option String) :
    (appendText acc t).1 = acc ++ concatAll (chunkTexts (appendText acc t).2) := by
  cases t with
  | none => simp [appendText, chunkTexts, concatAll, String.append_empty]
  | some s =>
    by_cases h : s = "" <;>
      simp [appendText, h, chunkTexts, concatAll, String.append_empty]

/-- The resumed-stream loop appends to the accumulator exactly what it
delivers via `onChunk`. -/
theorem consumeToolStream_fst (l : List Fragment) : ∀ acc,
    (consumeToolStream acc l).1
      = acc ++ concatAll (chunkTexts (consumeToolStream acc l).2) := by
  induction l with
  | nil =>
    intro acc
    simp [consumeToolStream, chunkTexts, concatAll, String.append_empty]
  | cons f fs ih =>
    intro acc
    simp only [consumeToolStream]
    rw [chunkTexts_append, concatAll_append, ih, appendText_fst, String.append_assoc]

/-- The resumed-stream loop emits only `onChunk` events. -/
theorem consumeToolStream_chunks (l : List Fragment) : ∀ acc,
    ∀ e ∈ (consumeToolStream acc l).2, isChunkEv e = true := by
  induction l with
  | nil => intro acc e he; simp [consumeToolStream] at he
  | cons f fs ih =>
    intro acc e he
    simp only [consumeToolStream, List.mem_append] at he
    rcases he with h | h
    · cases ht : f.text with
      | none => simp [appendText, ht] at h
      | some s =>
        by_cases hs : s = "" <;> simp [appendText, ht, hs] at h
        simp [h, isChunkEv]
    · exact ih _ e h

/-- Executing one tool call emits only `onChart` events. -/
theorem execCall_events_chart (env : ModelEnv) (k : ℕ) (c : FunctionCall) :
    ∀ e ∈ (execCall env k c).events, isChartEv e = true := by
  simp only [execCall]
  split_ifs <;> simp [isChartEv]

/-- Executing a batch emits only `onChart` events. -/
theorem execBatch_events_chart (env : ModelEnv) : ∀ (calls : List FunctionCall) (k : ℕ),
    ∀ e ∈ (execBatch env k calls).events, isChartEv e = true
  | [], k => by simp [execBatch]
  | c :: cs, k => by
    simp only [execBatch, List.mem_append]
    intro e he
    rcases he with h | h
    · exact execCall_events_chart env k c e h
    · exact execBatch_events_chart env cs (execCall env k c).k e h

/-- A trace without `onChunk` events contributes no chunk texts. -/
theorem chunkTexts_eq_nil (tr : List Event) (h : ∀ e ∈ tr, isChunkEv e = false) :
    chunkTexts tr = [] := by
  induction tr with
  | nil => rfl
  | cons e rest ih =>
    have he := h e (List.mem_cons_self e rest)
    have hr := ih fun x hx => h x (List.mem_cons_of_mem e hx)
    cases e <;> simp_all [chunkTexts, isChunkEv, List.filterMap]

/-- The chart events of a batch execution contribute no chunk texts. -/
theorem chunkTexts_execBatch (env : ModelEnv) (calls : List FunctionCall) (k : ℕ) :
    chunkTexts (execBatch env k calls).events = [] := by
  refine chunkTexts_eq_nil _ fun e he => ?_
  have := execBatch_events_chart env calls k e he
  cases e <;> simp_all [isChartEv, isChunkEv]

/-- The fullText accumulated by one fragment step is the previous
accumulator followed by the concatenation of the chunk texts the step
delivered. -/
theorem processFragment_fullText (env : ModelEnv) (st : TurnState) (frag : Fragment) :
    (processFragment env st frag).1.fullText
      = st.fullText ++ concatAll (chunkTexts (processFragment env st frag).2) := by
  simp only [processFragment]
  by_cases h1 : frag.functionCalls.isEmpty
  · simp only [h1, if_true]
    exact appendText_fst st.fullText frag.text
  · simp only [h1, if_false, Bool.false_eq_true]
    by_cases h2 : (execBatch env st.k frag.functionCalls).responses.isEmpty
    · simp only [h2, if_true, chunkTexts_append, chunkTexts_execBatch,
        List.append_nil]
      exact appendText_fst st.fullText frag.text
    · simp only [h2, if_false, Bool.false_eq_true, chunkTexts_append,
        chunkTexts_execBatch]
      rw [show chunkTexts [Event.submit (execBatch env st.k frag.functionCalls).responses]
          = [] from rfl]
      rw [consumeToolStream_fst, appendText_fst]
      simp [concatAll_append, concatAll, String.append_assoc]

/-- The fullText accumulated by the outer stream loop is the initial
accumulator followed by the concatenation of all delivered chunk
texts. -/
theorem processStream_fullText (env : ModelEnv) :
    ∀ (stream : List Fragment) (st : TurnState),
    (processStream env st stream).1.fullText
      = st.fullText ++ concatAll (chunkTexts (processStream env st stream).2)
  | [], st => by simp [processStream, chunkTexts, concatAll, String.append_empty]
  | f :: fs, st => by
    simp only [processStream]
    rw [chunkTexts_append, concatAll_append, processStream_fullText env fs,
      processFragment_fullText, String.append_assoc]

/-! Theorems for the claims. -/

/-- C8: for every generated ChartSeries, `trend` is "up" iff the last
price exceeds the first, "down" iff it is below it, and "neutral" iff
they are equal. -/
theorem trend_matches_endpoints (rand : ℕ → ℚ) (dl : String → ℕ → String)
    (k : ℕ) (symbol period : String) :
    ((generateMockChartData rand dl k symbol period).trend = "up"
      ↔ ((generateMockChartData rand dl k symbol period).data.getLastD defaultPoint).price
          > ((generateMockChartData rand dl k symbol period).data.headD defaultPoint).price)
    ∧ ((generateMockChartData rand dl k symbol period).trend = "down"
      ↔ ((generateMockChartData rand dl k symbol period).data.getLastD defaultPoint).price
          < ((generateMockChartData rand dl k symbol period).data.headD defaultPoint).price)
    ∧ ((generateMockChartData rand dl k symbol period).trend = "neutral"
      ↔ ((generateMockChartData rand dl k symbol period).data.getLastD defaultPoint).price
          = ((generateMockChartData rand dl k symbol period).data.headD defaultPoint).price) := by
  simp only [generateMockChartData]
  exact trend_iff _ _

/-- C9: a "1W" chart has exactly 8 points, and in general the point
count of a generated series is a function of the period alone,
independent of the symbol, the random stream, the date labeller and the
stream position. -/
theorem chart_point_count_period_only (rand rand2 : ℕ → ℚ)
    (dl dl2 : String → ℕ → String) (k k2 : ℕ) (symbol symbol2 period : String) :
    (generateMockChartData rand dl k symbol "1W").data.length = 8
    ∧ (generateMockChartData rand dl k symbol period).data.length
        = (generateMockChartData rand2 dl2 k2 symbol2 period).data.length := by
  refine ⟨?_, ?_⟩ <;> simp [generateMockChartData_data_length, pointsFor]

/-- C10: `generateMockChartData` is a total function; the `period` field
equals the input period verbatim (no validation against the enum), and
the point count is 25 for "1D", 8 for "1W", 31 for "1M", 13 for "1Y",
and 31 for any other string. -/
theorem generateMockChartData_period_verbatim_and_counts (rand : ℕ → ℚ)
    (dl : String → ℕ → String) (k : ℕ) (symbol period : String) :
    (generateMockChartData rand dl k symbol period).period = period
    ∧ (generateMockChartData rand dl k symbol period).data.length
        = if period = "1D" then 25 else if period = "1W" then 8
          else if period = "1M" then 31 else if period = "1Y" then 13 else 31 := by
  refine ⟨generateMockChartData_period rand dl k symbol period, ?_⟩
  rw [generateMockChartData_data_length]
  unfold pointsFor
  split_ifs <;> rfl

/-- C7: for every request with a known name, execution substitutes
defaults for missing arguments rather than failing: a `getStockChart`
request always emits exactly one chart and a non-empty response,
whichever arguments are missing; when its `symbol` argument is missing
the chart's symbol is the sentinel "UNKNOWN", and when its `period`
argument is missing the chart's period defaults to "1M"; a
`getStockPrice` request with a missing `symbol` argument produces its
price message for the sentinel "UNKNOWN". -/
theorem missing_args_defaulted (env : ModelEnv) (k : ℕ) (c : FunctionCall) :
    (c.name = "getStockChart" →
      (∃ ch, (execCall env k c).events = [Event.chart ch]
        ∧ (c.argSymbol = none → ch.symbol = "UNKNOWN")
        ∧ (c.argPeriod = none → ch.period = "1M"))
      ∧ (execCall env k c).responses ≠ [])
    ∧ (c.name = "getStockPrice" → c.argSymbol = none →
      (execCall env k c).responses
        = [{ id := c.id, name := c.name
             result := "The current price of UNKNOWN is $"
               ++ toFixed2 (env.rand k * 1000 + 10) ++ "." }]) := by
  constructor
  · intro h
    refine ⟨⟨generateMockChartData env.rand env.dateLabel k
        (jsOr c.argSymbol "UNKNOWN") (jsOr c.argPeriod "1M"), ?_, ?_, ?_⟩, ?_⟩
    · simp only [execCall]
      rw [if_pos h]
    · intro hs
      rw [show (generateMockChartData env.rand env.dateLabel k
          (jsOr c.argSymbol "UNKNOWN") (jsOr c.argPeriod "1M")).symbol
          = toUpperStr (jsOr c.argSymbol "UNKNOWN") from rfl, hs]
      decide
    · intro hp
      rw [generateMockChartData_period, hp]
      rfl
    · simp only [execCall]
      rw [if_pos h]
      simp
  · intro h hs
    have hne : ¬ c.name = "getStockChart" := by rw [h]; decide
    simp only [execCall]
    rw [if_neg hne, if_pos h, hs]
    rfl

/-- Witness for the C7 theorem at three concrete requests: a chart
request missing only its period, a chart request missing only its
symbol, and a price request missing its symbol. -/
theorem missing_args_defaulted_witness :
    (∃ ch, (execCall cEnv0 0 cChartNoPeriod).events = [Event.chart ch] ∧ ch.period = "1M")
    ∧ (∃ ch, (execCall cEnv0 0 cChartNoSymbol).events = [Event.chart ch]
        ∧ ch.symbol = "UNKNOWN")
    ∧ (execCall cEnv0 0 cPriceNoSymbol).responses
        = [{ id := "p2", name := "getStockPrice"
             result := "The current price of UNKNOWN is $"
               ++ toFixed2 (cEnv0.rand 0 * 1000 + 10) ++ "." }] := by
  refine ⟨?_, ?_, ?_⟩
  · obtain ⟨⟨ch, hev, _, hper⟩, _⟩ := (missing_args_defaulted cEnv0 0 cChartNoPeriod).1 rfl
    exact ⟨ch, hev, hper rfl⟩
  · obtain ⟨⟨ch, hev, hsym, _⟩, _⟩ := (missing_args_defaulted cEnv0 0 cChartNoSymbol).1 rfl
    exact ⟨ch, hev, hsym rfl⟩
  · exact (missing_args_defaulted cEnv0 0 cPriceNoSymbol).2 rfl rfl

/-- C4: for every turn, the `text` field of the returned TurnResult is
the exact in-order concatenation of all texts delivered via `onChunk`
across the whole turn, including the tool-resumed continuations. -/
theorem fullText_eq_concat_of_chunks (env : ModelEnv) (stream : List Fragment) :
    (sendMessage env stream).1.text = concatAll (chunkTexts (sendMessage env stream).2) := by
  simp only [sendMessage]
  rw [processStream_fullText]
  exact String.empty_append _

/-- An unknown tool name falls through both dispatch branches: no
events, no responses, no random numbers consumed. -/
theorem execCall_unknown (env : ModelEnv) (k : ℕ) (c : FunctionCall)
    (h1 : c.name ≠ "getStockChart") (h2 : c.name ≠ "getStockPrice") :
    execCall env k c = { events := [], responses := [], k := k } := by
  simp only [execCall]
  rw [if_neg h1, if_neg h2]

/-- One call contributes its `(id, name)` pair to the responses exactly
when its name is a registered tool. -/
theorem execCall_responses_ids (env : ModelEnv) (k : ℕ) (c : FunctionCall) :
    (execCall env k c).responses.map (fun r => (r.id, r.name))
      = if isKnownTool c then [(c.id, c.name)] else [] := by
  by_cases h1 : c.name = "getStockChart"
  · simp [execCall, isKnownTool, h1]
  · by_cases h2 : c.name = "getStockPrice" <;> simp [execCall, isKnownTool, h1, h2]

/-- Batch execution: the `(id, name)` pairs of the collected responses
are exactly those of the known-tool requests, in request order. -/
theorem execBatch_responses_ids (env : ModelEnv) : ∀ (calls : List FunctionCall) (k : ℕ),
    (execBatch env k calls).responses.map (fun r => (r.id, r.name))
      = (calls.filter isKnownTool).map (fun c => (c.id, c.name))
  | [], k => by simp [execBatch]
  | c :: cs, k => by
    simp only [execBatch, List.map_append, List.filter_cons]
    rw [execBatch_responses_ids env cs, execCall_responses_ids]
    by_cases h : isKnownTool c <;> simp [h]

/-- A batch whose every request has an unknown name executes to
nothing. -/
theorem execBatch_all_unknown (env : ModelEnv) : ∀ (calls : List FunctionCall) (k : ℕ),
    (∀ c ∈ calls, isKnownTool c = false) →
    execBatch env k calls = { events := [], responses := [], k := k }
  | [], _, _ => rfl
  | c :: cs, k, h => by
    have hc := h c (List.mem_cons_self c cs)
    have hcall : execCall env k c = { events := [], responses := [], k := k } := by
      refine execCall_unknown env k c ?_ ?_ <;>
        · intro hn
          simp [isKnownTool, hn] at hc
    have hrest := execBatch_all_unknown env cs k fun x hx => h x (List.mem_cons_of_mem c hx)
    simp [execBatch, hcall, hrest]

/-- A trace without submit events yields no submissions. -/
theorem submitsOf_eq_nil (tr : List Event) (h : ∀ e ∈ tr, isSubmitEv e = false) :
    submitsOf tr = [] := by
  induction tr with
  | nil => rfl
  | cons e rest ih =>
    have he := h e (List.mem_cons_self e rest)
    have hr := ih fun x hx => h x (List.mem_cons_of_mem e hx)
    cases e <;> simp_all [submitsOf, isSubmitEv, List.filterMap]

/-- `submitsOf` distributes over append. -/
theorem submitsOf_append (a b : List Event) :
    submitsOf (a ++ b) = submitsOf a ++ submitsOf b := by
  simp [submitsOf, List.filterMap_append]

/-- The text-handling step emits no submissions. -/
theorem submitsOf_appendText (acc : String) (t : Option String) :
    submitsOf (appendText acc t).2 = [] := by
  refine submitsOf_eq_nil _ fun e he => ?_
  cases t with
  | none => simp [appendText] at he
  | some s =>
    by_cases hs : s = "" <;> simp [appendText, hs] at he
    simp [he, isSubmitEv]

/-- Batch execution emits no submissions (only chart callbacks). -/
theorem submitsOf_execBatch (env : ModelEnv) (calls : List FunctionCall) (k : ℕ) :
    submitsOf (execBatch env k calls).events = [] := by
  refine submitsOf_eq_nil _ fun e he => ?_
  have := execBatch_events_chart env calls k e he
  cases e <;> simp_all [isChartEv, isSubmitEv]

/-- The resumed-stream loop emits no submissions. -/
theorem submitsOf_consumeToolStream (acc : String) (l : List Fragment) :
    submitsOf (consumeToolStream acc l).2 = [] := by
  refine submitsOf_eq_nil _ fun e he => ?_
  have := consumeToolStream_chunks l acc e he
  cases e <;> simp_all [isChunkEv, isSubmitEv]

/-- A single submit event yields exactly its batch. -/
theorem submitsOf_single (rs : List FunctionResponse) :
    submitsOf [Event.submit rs] = [rs] := rfl

/-- A leading submit event contributes its batch. -/
theorem submitsOf_cons_submit (rs : List FunctionResponse) (tr : List Event) :
    submitsOf (Event.submit rs :: tr) = rs :: submitsOf tr := by
  simp [submitsOf, List.filterMap]

/-- One fragment step submits either nothing (no responses collected)
or the full response batch as one single message. -/
theorem processFragment_submits (env : ModelEnv) (st : TurnState) (frag : Fragment) :
    submitsOf (processFragment env st frag).2
      = if (execBatch env st.k frag.functionCalls).responses.isEmpty then []
        else [(execBatch env st.k frag.functionCalls).responses] := by
  simp only [processFragment]
  by_cases h1 : frag.functionCalls.isEmpty
  · have hnil : frag.functionCalls = [] := by
      simpa using h1
    simp [h1, hnil, execBatch, submitsOf_appendText]
  · simp only [h1, if_false, Bool.false_eq_true]
    by_cases h2 : (execBatch env st.k frag.functionCalls).responses.isEmpty
    · simp [h2, submitsOf_append, submitsOf_appendText, submitsOf_execBatch]
    · simp [h2, submitsOf_append, submitsOf_appendText, submitsOf_execBatch,
        submitsOf_consumeToolStream, submitsOf_single, submitsOf_cons_submit]

/-- C1 as stated is false at a concrete unknown-tool request: executing
it yields no ToolInvocationResult at all — in particular none whose
payload states the tool is unavailable — and nothing is submitted back
to the model for it; the turn's text is only what the model itself
streamed. -/
theorem unknown_tool_no_result_cex :
    (execCall cEnv0 0 cUnknownCall).responses = []
    ∧ submitsOf (processFragment cEnv0 cState0 cUnknownFrag).2 = []
    ∧ (processFragment cEnv0 cState0 cUnknownFrag).1.fullText = "Looking that up." := by
  refine ⟨by decide, by decide, by decide⟩

/-- C1 amended: a tool invocation request whose name matches no
registered tool never raises past the executor boundary (execution is
total), but it is silently skipped: it produces no result and no
unavailability message, and a fragment whose batch consists only of
unknown names submits nothing back to the model — the turn continues
with exactly the text events of the fragment itself. -/
theorem unknown_tools_never_raise_and_skipped (env : ModelEnv) (st : TurnState)
    (frag : Fragment) (h : ∀ c ∈ frag.functionCalls, isKnownTool c = false) :
    (processFragment env st frag).2 = (appendText st.fullText frag.text).2
    ∧ (processFragment env st frag).1.fullText = (appendText st.fullText frag.text).1 := by
  simp only [processFragment]
  by_cases h1 : frag.functionCalls.isEmpty
  · simp [h1]
  · have he := execBatch_all_unknown env frag.functionCalls st.k h
    simp [h1, he]

/-- Witness for the C1 theorem at a concrete fragment whose only
request names an unregistered tool. -/
theorem unknown_tools_never_raise_and_skipped_witness :
    (∀ c ∈ cUnknownFrag.functionCalls, isKnownTool c = false)
    ∧ ((processFragment cEnv0 cState0 cUnknownFrag).2
        = (appendText cState0.fullText cUnknownFrag.text).2
      ∧ (processFragment cEnv0 cState0 cUnknownFrag).1.fullText
        = (appendText cState0.fullText cUnknownFrag.text).1) :=
  ⟨by decide, unknown_tools_never_raise_and_skipped cEnv0 cState0 cUnknownFrag (by decide)⟩

/-- C2 as stated is false at a concrete batch: a batch consisting of one
request with an unregistered name produces zero ToolInvocationResults,
not one per request. -/
theorem tool_batch_missing_result_cex :
    ([cUnknownCall] : List FunctionCall).length = 1
    ∧ (execBatch cEnv0 0 [cUnknownCall]).responses.length = 0 := by
  refine ⟨rfl, by decide⟩

/-- C2 amended: one ToolInvocationResult is produced per request whose
name is a registered tool (`getStockChart` or `getStockPrice`), each
result's `(id, name)` equals its request's `(id, name)`, results keep
the order of their requests, and whenever any results exist the full
batch is submitted back to the model as one single message — never
partially. -/
theorem tool_results_correlate_and_submitted_whole (env : ModelEnv) (st : TurnState)
    (frag : Fragment) :
    (execBatch env st.k frag.functionCalls).responses.map (fun r => (r.id, r.name))
      = (frag.functionCalls.filter isKnownTool).map (fun c => (c.id, c.name))
    ∧ submitsOf (processFragment env st frag).2
      = if (execBatch env st.k frag.functionCalls).responses.isEmpty then []
        else [(execBatch env st.k frag.functionCalls).responses] :=
  ⟨execBatch_responses_ids env frag.functionCalls st.k, processFragment_submits env st frag⟩

/-- A `getStockChart` call executes to exactly one chart event and a
non-empty response list. -/
theorem execCall_chart_event (env : ModelEnv) (k : ℕ) (c : FunctionCall)
    (h : c.name = "getStockChart") :
    (∃ ch, (execCall env k c).events = [Event.chart ch])
    ∧ (execCall env k c).responses ≠ [] := by
  simp only [execCall]
  rw [if_pos h]
  exact ⟨⟨_, rfl⟩, by simp⟩

/-- A batch containing a `getStockChart` request executes to at least
one chart event and a non-empty response list. -/
theorem execBatch_chart_event (env : ModelEnv) : ∀ (calls : List FunctionCall) (k : ℕ),
    (∃ c ∈ calls, c.name = "getStockChart") →
    (∃ ch, Event.chart ch ∈ (execBatch env k calls).events)
    ∧ (execBatch env k calls).responses ≠ []
  | [], _, h => by simp at h
  | c :: cs, k, h => by
    rcases h with ⟨c0, hc0, hname⟩
    rcases List.mem_cons.mp hc0 with rfl | hmem
    · obtain ⟨⟨ch, hev⟩, hrs⟩ := execCall_chart_event env k c0 hname
      refine ⟨⟨ch, ?_⟩, ?_⟩
      · simp only [execBatch, List.mem_append]
        exact Or.inl (by rw [hev]; exact List.mem_singleton_self (Event.chart ch))
      · simp only [execBatch]
        intro hcontra
        rcases List.append_eq_nil.mp hcontra with ⟨ha, _⟩
        exact hrs ha
    · obtain ⟨⟨ch, hmemev⟩, hrs⟩ :=
        execBatch_chart_event env cs (execCall env k c).k ⟨c0, hmem, hname⟩
      refine ⟨⟨ch, ?_⟩, ?_⟩
      · simp only [execBatch, List.mem_append]
        exact Or.inr hmemev
      · simp only [execBatch]
        intro hcontra
        rcases List.append_eq_nil.mp hcontra with ⟨_, hb⟩
        exact hrs hb

/-- When a fragment's batch yields responses, its trace is: the
fragment's own text events, then the execution (chart) events, then the
single submission of the whole batch, then the resumed stream's chunk
events. -/
theorem processFragment_tools_shape (env : ModelEnv) (st : TurnState) (frag : Fragment)
    (h1 : frag.functionCalls.isEmpty = false)
    (h2 : (execBatch env st.k frag.functionCalls).responses.isEmpty = false) :
    (processFragment env st frag).2
      = (appendText st.fullText frag.text).2
        ++ (execBatch env st.k frag.functionCalls).events
        ++ Event.submit (execBatch env st.k frag.functionCalls).responses
          :: (consumeToolStream (appendText st.fullText frag.text).1
              (env.resume st.n (execBatch env st.k frag.functionCalls).responses)).2 := by
  simp only [processFragment, h1, h2, Bool.false_eq_true, if_false]
  simp [List.append_assoc]

/-- The outer loop's trace over an appended stream splits at the join,
with the state threaded through. -/
theorem processStream_append (env : ModelEnv) : ∀ (a b : List Fragment) (st : TurnState),
    processStream env st (a ++ b)
      = ((processStream env (processStream env st a).1 b).1,
         (processStream env st a).2 ++ (processStream env (processStream env st a).1 b).2)
  | [], b, st => by simp [processStream]
  | f :: fs, b, st => by
    simp only [List.cons_append, processStream, List.append_eq]
    rw [processStream_append env fs b]
    simp [List.append_assoc]

/-- One fragment containing a chart request: its trace splits as
`l1 ++ submit rs :: l2` with a chart callback inside `l1` and only chunk
deliveries in `l2`. -/
theorem processFragment_chart_shape (env : ModelEnv) (st : TurnState) (frag : Fragment)
    (h : ∃ c ∈ frag.functionCalls, c.name = "getStockChart") :
    ∃ l1 rs l2, (processFragment env st frag).2 = l1 ++ Event.submit rs :: l2
      ∧ (∃ ch, Event.chart ch ∈ l1)
      ∧ (∀ e ∈ l2, isChunkEv e = true) := by
  have h1 : frag.functionCalls.isEmpty = false := by
    obtain ⟨c, hc, _⟩ := h
    cases hl : frag.functionCalls with
    | nil => rw [hl] at hc; exact absurd hc (List.not_mem_nil c)
    | cons x xs => rfl
  obtain ⟨⟨ch, hch⟩, hrs⟩ := execBatch_chart_event env frag.functionCalls st.k h
  have h2 : (execBatch env st.k frag.functionCalls).responses.isEmpty = false := by
    cases hr : (execBatch env st.k frag.functionCalls).responses with
    | nil => exact absurd hr hrs
    | cons x xs => rfl
  refine ⟨(appendText st.fullText frag.text).2
      ++ (execBatch env st.k frag.functionCalls).events,
    (execBatch env st.k frag.functionCalls).responses,
    (consumeToolStream (appendText st.fullText frag.text).1
      (env.resume st.n (execBatch env st.k frag.functionCalls).responses)).2,
    ?_, ⟨ch, List.mem_append_right _ hch⟩, consumeToolStream_chunks _ _⟩
  rw [processFragment_tools_shape env st frag h1 h2]

/-- C5: when a fragment of the model's stream contains a `getStockChart`
request, the turn's trace splits as `t1 ++ l1 ++ submit rs :: (l2 ++ t2)`
with the `onChart` callback inside `l1` — strictly before the submission
that returns the textual summary to the model — and with only text-chunk
deliveries in `l2`, the resumed stream of that batch; the final
TurnResult is produced only after the last event of the trace. -/
theorem chart_callback_ordering (env : ModelEnv) (pre post : List Fragment) (frag : Fragment)
    (h : ∃ c ∈ frag.functionCalls, c.name = "getStockChart") :
    ∃ t1 l1 rs l2 t2,
      (sendMessage env (pre ++ frag :: post)).2
        = t1 ++ l1 ++ Event.submit rs :: (l2 ++ t2)
      ∧ (∃ ch, Event.chart ch ∈ l1)
      ∧ (∀ e ∈ l2, isChunkEv e = true) := by
  obtain ⟨l1, rs, l2, heq, hchart, hchunk⟩ :=
    processFragment_chart_shape env
      (processStream env { fullText := "", sources := [], k := 0, n := 0 } pre).1 frag h
  refine ⟨(processStream env { fullText := "", sources := [], k := 0, n := 0 } pre).2,
    l1, rs, l2,
    (processStream env
      (processFragment env
        (processStream env { fullText := "", sources := [], k := 0, n := 0 } pre).1 frag).1
      post).2, ?_, hchart, hchunk⟩
  simp only [sendMessage]
  rw [processStream_append env pre (frag :: post)]
  simp only [processStream]
  rw [heq]
  simp [List.append_assoc]

/-- Witness for C5 at a concrete one-fragment stream containing a chart
request, resumed with closing text. -/
theorem chart_callback_ordering_witness :
    ∃ t1 l1 rs l2 t2,
      (sendMessage cEnvText [cChartFrag]).2
        = t1 ++ l1 ++ Event.submit rs :: (l2 ++ t2)
      ∧ (∃ ch, Event.chart ch ∈ l1)
      ∧ (∀ e ∈ l2, isChunkEv e = true) :=
  chart_callback_ordering cEnvText [] [] cChartFrag
    ⟨cChartCall, List.mem_singleton_self cChartCall, rfl⟩

/-- `nonChunk` distributes over append. -/
theorem nonChunk_append (a b : List Event) :
    nonChunk (a ++ b) = nonChunk a ++ nonChunk b := by
  simp [nonChunk, List.filter_append]

/-- The text-handling step contributes no non-chunk events. -/
theorem nonChunk_appendText (acc : String) (t : Option String) :
    nonChunk (appendText acc t).2 = [] := by
  cases t with
  | none => rfl
  | some s => by_cases hs : s = "" <;> simp [appendText, hs, nonChunk, isChunkEv]

/-- Batch execution events are all non-chunk, so `nonChunk` keeps them
all. -/
theorem nonChunk_execBatch (env : ModelEnv) (calls : List FunctionCall) (k : ℕ) :
    nonChunk (execBatch env k calls).events = (execBatch env k calls).events := by
  rw [nonChunk, List.filter_eq_self]
  intro e he
  have := execBatch_events_chart env calls k e he
  cases e <;> simp_all [isChartEv, isChunkEv]

/-- The resumed-stream loop contributes no non-chunk events. -/
theorem nonChunk_consumeToolStream (acc : String) (l : List Fragment) :
    nonChunk (consumeToolStream acc l).2 = [] := by
  rw [nonChunk, List.filter_eq_nil_iff]
  intro e he
  have := consumeToolStream_chunks l acc e he
  cases e <;> simp_all [isChunkEv]

/-- A leading submit event survives `nonChunk`. -/
theorem nonChunk_cons_submit (rs : List FunctionResponse) (tr : List Event) :
    nonChunk (Event.submit rs :: tr) = Event.submit rs :: nonChunk tr := by
  simp [nonChunk, isChunkEv]

/-- The non-chunk events of one fragment step are its batch-execution
chart events followed by the single submission (when one happens), and
the `k`/`n` components of the resulting state are determined by the
batch execution alone. -/
theorem processFragment_nonChunk (env : ModelEnv) (st : TurnState) (frag : Fragment) :
    nonChunk (processFragment env st frag).2
      = (execBatch env st.k frag.functionCalls).events
        ++ (if (execBatch env st.k frag.functionCalls).responses.isEmpty then []
            else [Event.submit (execBatch env st.k frag.functionCalls).responses])
    ∧ (processFragment env st frag).1.k = (execBatch env st.k frag.functionCalls).k
    ∧ (processFragment env st frag).1.n
      = (if (execBatch env st.k frag.functionCalls).responses.isEmpty then st.n
         else st.n + 1) := by
  by_cases h1 : frag.functionCalls.isEmpty
  · have hnil : frag.functionCalls = [] := by simpa using h1
    refine ⟨?_, ?_, ?_⟩ <;>
      simp [processFragment, h1, hnil, execBatch, nonChunk_appendText]
  · simp only [processFragment, h1, if_false, Bool.false_eq_true]
    by_cases h2 : (execBatch env st.k frag.functionCalls).responses.isEmpty
    · refine ⟨?_, ?_, ?_⟩ <;>
        simp [h2, nonChunk_append, nonChunk_appendText, nonChunk_execBatch]
    · refine ⟨?_, ?_, ?_⟩ <;>
        simp [h2, nonChunk_append, nonChunk_appendText, nonChunk_execBatch,
          nonChunk_consumeToolStream, nonChunk_cons_submit]

/-- One call's execution does not depend on the `resume` component of
the environment. -/
theorem execCall_resume_irrel (rand : ℕ → ℚ) (dl : String → ℕ → String)
    (res res2 : ℕ → List FunctionResponse → List Fragment) (k : ℕ) (c : FunctionCall) :
    execCall { rand := rand, dateLabel := dl, resume := res } k c
      = execCall { rand := rand, dateLabel := dl, resume := res2 } k c := rfl

/-- Batch execution does not depend on the `resume` component of the
environment. -/
theorem execBatch_resume_irrel (rand : ℕ → ℚ) (dl : String → ℕ → String)
    (res res2 : ℕ → List FunctionResponse → List Fragment) :
    ∀ (calls : List FunctionCall) (k : ℕ),
    execBatch { rand := rand, dateLabel := dl, resume := res } k calls
      = execBatch { rand := rand, dateLabel := dl, resume := res2 } k calls
  | [], _ => rfl
  | c :: cs, k => by
    simp only [execBatch]
    rw [execCall_resume_irrel rand dl res res2 k c,
      execBatch_resume_irrel rand dl res res2 cs]

/-- The non-chunk events of a turn — all chart callbacks and all
submissions — do not depend on what the model streams back after tool
submissions; only chunk deliveries do. -/
theorem processStream_resume_irrel (rand : ℕ → ℚ) (dl : String → ℕ → String)
    (res res2 : ℕ → List FunctionResponse → List Fragment) :
    ∀ (stream : List Fragment) (st st2 : TurnState), st.k = st2.k → st.n = st2.n →
    nonChunk (processStream { rand := rand, dateLabel := dl, resume := res } st stream).2
      = nonChunk (processStream { rand := rand, dateLabel := dl, resume := res2 } st2 stream).2
    ∧ (processStream { rand := rand, dateLabel := dl, resume := res } st stream).1.k
      = (processStream { rand := rand, dateLabel := dl, resume := res2 } st2 stream).1.k
    ∧ (processStream { rand := rand, dateLabel := dl, resume := res } st stream).1.n
      = (processStream { rand := rand, dateLabel := dl, resume := res2 } st2 stream).1.n
  | [], _, _, hk, hn => ⟨rfl, hk, hn⟩
  | f :: fs, st, st2, hk, hn => by
    have hexec : execBatch { rand := rand, dateLabel := dl, resume := res } st.k f.functionCalls
        = execBatch { rand := rand, dateLabel := dl, resume := res2 } st2.k f.functionCalls := by
      rw [hk, execBatch_resume_irrel rand dl res res2 f.functionCalls]
    obtain ⟨e1, k1, n1⟩ :=
      processFragment_nonChunk { rand := rand, dateLabel := dl, resume := res } st f
    obtain ⟨e2, k2, n2⟩ :=
      processFragment_nonChunk { rand := rand, dateLabel := dl, resume := res2 } st2 f
    have hk2 : (processFragment { rand := rand, dateLabel := dl, resume := res } st f).1.k
        = (processFragment { rand := rand, dateLabel := dl, resume := res2 } st2 f).1.k := by
      rw [k1, k2, hexec]
    have hn2 : (processFragment { rand := rand, dateLabel := dl, resume := res } st f).1.n
        = (processFragment { rand := rand, dateLabel := dl, resume := res2 } st2 f).1.n := by
      rw [n1, n2, hexec, hn]
    have ih := processStream_resume_irrel rand dl res res2 fs
      (processFragment { rand := rand, dateLabel := dl, resume := res } st f).1
      (processFragment { rand := rand, dateLabel := dl, resume := res2 } st2 f).1 hk2 hn2
    refine ⟨?_, ih.2.1, ih.2.2⟩
    simp only [processStream]
    rw [nonChunk_append, nonChunk_append, e1, e2, hexec, ih.1]

/-- C3 amended: the resumed fragment sequences are consumed for text
only — chart callbacks and submissions (the non-chunk events of the
turn) are completely independent of what the model streams back after a
tool-result submission, so tool requests occurring in a resumed stream
are never executed; the HANDLING_TOOLS step recurs only for batches of
the initial stream. -/
theorem resumed_requests_not_executed (rand : ℕ → ℚ) (dl : String → ℕ → String)
    (res res2 : ℕ → List FunctionResponse → List Fragment) (stream : List Fragment) :
    nonChunk (sendMessage { rand := rand, dateLabel := dl, resume := res } stream).2
      = nonChunk (sendMessage { rand := rand, dateLabel := dl, resume := res2 } stream).2 := by
  simp only [sendMessage]
  exact (processStream_resume_irrel rand dl res res2 stream
    { fullText := "", sources := [], k := 0, n := 0 }
    { fullText := "", sources := [], k := 0, n := 0 } rfl rfl).1

/-- C3 as stated is false at a concrete turn: the initial stream carries
one `getStockPrice` request; after its results are submitted, the
resumed stream contains a further `getStockChart` request — yet no chart
callback ever fires and only the one submission happens: the request in
the resumed stream is not executed, so the cycle does not repeat. -/
theorem resumed_chart_request_ignored_cex :
    (cResumeFrag.functionCalls.filter fun c => c.name == "getStockChart").length = 1
    ∧ (sendMessage cEnvResume [cPriceFrag]).2.countP isChartEv = 0
    ∧ (submitsOf (sendMessage cEnvResume [cPriceFrag]).2).length = 1 := by
  refine ⟨by decide, by decide, by decide⟩

/-- C6 as stated is false: with the API key absent, construction merely
logs a console error, stores the empty string as the key, and
`initializeChat` still succeeds, producing a live chat session — no
failure is surfaced at session-initialization time. -/
theorem missing_key_init_succeeds_cex :
    (mkGeminiService none).2 = ["API_KEY is missing from environment variables"]
    ∧ (mkGeminiService none).1.apiKey = ""
    ∧ (initializeChat (mkGeminiService none).1).chatSession
        = some { modelName := "gemini-2.5-flash"
                 declaredTools := ["getStockChart", "getStockPrice"] } := by
  refine ⟨by decide, rfl, rfl⟩

/-- C6 amended: a missing or empty API key does not make construction or
session initialization fail — an error is logged exactly when the key is
falsy, the stored key falls back to the empty string, and a chat session
is always created; any failure can surface only later, at the first
model call, which is still before any fragment is emitted. -/
theorem missing_key_nonfatal (key : Option String) :
    (initializeChat (mkGeminiService key).1).chatSession.isSome = true
    ∧ (mkGeminiService key).1.apiKey = jsOr key ""
    ∧ ((mkGeminiService key).2 ≠ [] ↔ (key = none ∨ key = some "")) := by
  refine ⟨rfl, rfl, ?_⟩
  by_cases h : key = none ∨ key = some "" <;> simp [mkGeminiService, h]
